import Mathlib

/-!
# Verification of the Duktape runtime core specification

Shallow embedding of selected parts of the Duktape ECMAScript engine
(call handler, reference counting / mark-and-sweep interaction, identifier
binding primitives, coroutine yield, Dragon4 number conversion), translated
from the C sources, together with proofs settling the frozen claims about
the natural-language specification.

Conventions:
* machine integers are modelled as `Nat`/`Int`;
* heap pointers are modelled as `Nat` identities;
* the value stack is a `List` of tagged values, growing to the right
  (index 0 = stack bottom of the current frame unless noted otherwise);
* fallible paths return `Option`.
-/

set_option maxRecDepth 4000

/-! ## Tagged values (duk_tval)

A tagged value cell holds one of the eight script value kinds
(`duk_tval` in `duk_tval.h`; field payloads are abstracted to identities). -/

inductive DukTval where
  | undefined
  | null
  | boolean (b : Bool)
  | number (n : Nat)
  | string (s : Nat)
  | object (o : Nat)
  | buffer (o : Nat)
  | pointer (p : Nat)
deriving DecidableEq, Repr

def DukTval.isObject : DukTval → Bool
  | .object _ => true
  | _ => false

/-! ## C7: effective `this` binding coercion

Embedding of `handle_coerce_effective_this_binding` (duk_js_call.c).
The `ToObject` coercion (`duk_to_object`, part of the value-stack API whose
source file is not among the provided sources) is passed in as a parameter:
the claim only requires that the result is `ToObject` applied to the value.
The global object (`thr->builtins[DUK_BIDX_GLOBAL]`) may be absent (`none`)
exactly as the C code allows it to be `NULL` during teardown. -/

def handle_coerce_effective_this_binding
    (toObject : DukTval → DukTval) (globalObj : Option Nat)
    (funcStrict : Bool) (thisVal : DukTval) : DukTval :=
  if funcStrict then
    thisVal
  else if thisVal.isObject then
    thisVal
  else if thisVal = .undefined ∨ thisVal = .null then
    match globalObj with
    | some g => .object g
    | none => .undefined
  else
    toObject thisVal

/-! ## C8: coroutine yield preconditions

Embedding of `duk_builtin_thread_yield` (duk_builtin_thread.c).
The call stack is modelled as the list of activation function kinds, bottom
first; the yield built-in itself is the topmost entry (a native function). -/

inductive DukFuncKind where
  | compiled
  | native
deriving DecidableEq, Repr

structure YieldThreadState where
  hasResumer : Bool
  callstackFuncs : List DukFuncKind
  callstack_preventcount : Nat
deriving DecidableEq, Repr

inductive YieldOutcome where
  | longjmpYield (value : DukTval) (isError : Bool)
  | typeError
deriving DecidableEq, Repr

/-- The function kind of the activation below the yield built-in
(`thr->callstack + thr->callstack_top - 2`). -/
def yieldCallerKind (st : YieldThreadState) : Option DukFuncKind :=
  st.callstackFuncs.get? (st.callstackFuncs.length - 2)

def duk_builtin_thread_yield (st : YieldThreadState)
    (value : DukTval) (isError : Bool) : YieldOutcome :=
  if !st.hasResumer then
    .typeError
  else if st.callstackFuncs.length < 2 then
    .typeError
  else if yieldCallerKind st ≠ some .compiled then
    .typeError
  else if st.callstack_preventcount ≠ 1 then
    .typeError
  else
    .longjmpYield value isError

/-- C8: the yield built-in longjmps with a YIELD type iff the thread has a
resumer, the calling activation (below the yield built-in, requiring at least
two call-stack entries) is a compiled function, and the yield-prevent count is
exactly one; otherwise a TypeError is thrown. -/
theorem yield_longjmp_iff_preconditions (st : YieldThreadState)
    (value : DukTval) (isError : Bool) :
    (duk_builtin_thread_yield st value isError = .longjmpYield value isError ↔
      (st.hasResumer = true ∧ 2 ≤ st.callstackFuncs.length ∧
       yieldCallerKind st = some .compiled ∧ st.callstack_preventcount = 1)) ∧
    (duk_builtin_thread_yield st value isError = .longjmpYield value isError ∨
     duk_builtin_thread_yield st value isError = .typeError) := by
  unfold duk_builtin_thread_yield
  constructor
  · constructor
    · intro h
      by_cases h1 : st.hasResumer
      · by_cases h2 : st.callstackFuncs.length < 2
        · simp [h1, h2] at h
        · by_cases h3 : yieldCallerKind st = some .compiled
          · by_cases h4 : st.callstack_preventcount = 1
            · exact ⟨h1, by omega, h3, h4⟩
            · simp [h1, h2, h3, h4] at h
          · simp [h1, h2, h3] at h
      · simp [h1] at h
    · rintro ⟨h1, h2, h3, h4⟩
      simp [h1, h3, h4, Nat.not_lt.mpr h2]
  · by_cases h1 : st.hasResumer <;>
    by_cases h2 : st.callstackFuncs.length < 2 <;>
    by_cases h3 : yieldCallerKind st = some .compiled <;>
    by_cases h4 : st.callstack_preventcount = 1 <;>
    simp [h1, h2, h3, h4]

/-- C7: the effective `this` binding: strict targets keep the given value;
non-strict targets replace `undefined`/`null` by the global object (when the
global object exists), replace any other non-object value by `ToObject` of it,
and keep object values unchanged. -/
theorem coerce_effective_this_binding_cases
    (toObject : DukTval → DukTval) (globalObj : Option Nat) (g o : Nat)
    (v : DukTval) :
    (handle_coerce_effective_this_binding toObject globalObj true v = v) ∧
    (handle_coerce_effective_this_binding toObject (some g) false .undefined =
       .object g) ∧
    (handle_coerce_effective_this_binding toObject (some g) false .null =
       .object g) ∧
    (v.isObject = false → v ≠ .undefined → v ≠ .null →
       handle_coerce_effective_this_binding toObject globalObj false v =
         toObject v) ∧
    (handle_coerce_effective_this_binding toObject globalObj false (.object o) =
       .object o) := by
  refine ⟨rfl, rfl, rfl, ?_, rfl⟩
  intro hobj hu hn
  simp [handle_coerce_effective_this_binding, hobj, hu, hn]

/-- Witness for `coerce_effective_this_binding_cases` at a concrete
non-object, non-undefined, non-null value. -/
theorem coerce_effective_this_binding_cases_witness :
    (DukTval.number 5).isObject = false ∧
    DukTval.number 5 ≠ .undefined ∧ DukTval.number 5 ≠ .null ∧
    handle_coerce_effective_this_binding (fun _ => .object 7) (some 3) false
      (.number 5) = .object 7 := by
  refine ⟨by decide, by decide, by decide, ?_⟩
  exact (coerce_effective_this_binding_cases (fun _ => .object 7) (some 3) 3 7
    (.number 5)).2.2.2.1 (by decide) (by decide) (by decide)

/-! ## C9: identifier deletion (delvar)

Embedding of `get_identifier_reference` and `delvar_helper` (duk_js_var.c).

An environment-record chain is a list of records, innermost first (the
prototype chain of the records, `env->prototype` links).  A declarative
record (`DUK_HOBJECT_CLASS_DECENV`) carries the env-closed flag, the
register-bound names visible through the open-scope fast path
(`get_identifier_open_decl_env_regs`), and its own properties; an object
record (`DUK_HOBJECT_CLASS_OBJENV`) delegates to a target object.  Identifier
names are `Nat` identities (interned strings compare by pointer). -/

/-- A script object as seen by the binding primitives: own properties with a
configurability bit, plus the names visible further down its prototype chain
(`duk_hobject_hasprop_raw` traverses the chain; `delvar_helper`'s holder is
always the target object itself, so only own properties matter for delete). -/
structure HObject where
  ownProps : List (Nat × Bool)
  protoNames : List Nat
deriving DecidableEq, Repr

/-- `duk_hobject_hasprop_raw`: presence of the property on the object or on
its prototype chain (the properties code is not among the provided sources;
modelled by the visible-name sets of `HObject`). -/
def duk_hobject_hasprop_raw (o : HObject) (name : Nat) : Bool :=
  (o.ownProps.lookup name).isSome || o.protoNames.contains name

/-- Modelled from the spec: `duk_hobject_delprop_raw` (the property-operation
source file `duk_hobject_props.c` is not among the provided sources).
Spec 4.4: "delete(key, strict): honor `configurable`; strict-mode delete of a
non-configurable own property throws."  With the throw flag clear (the only
way `delvar_helper` calls it) the result is `false` for a non-configurable own
property and `true` otherwise (the property, if present, is removed). -/
def duk_hobject_delprop_raw (o : HObject) (name : Nat) (throwFlag : Bool) :
    Option (Bool × HObject) :=
  match o.ownProps.lookup name with
  | some configurable =>
      if configurable then
        some (true, ⟨o.ownProps.filter (fun kv => kv.1 ≠ name), o.protoNames⟩)
      else if throwFlag then
        none
      else
        some (false, o)
  | none => some (true, o)

/-- One environment record in the chain. -/
inductive EnvRec where
  | decl (envClosed : Bool) (regNames : List Nat) (props : List (Nat × Bool))
  | obj (target : HObject)
deriving DecidableEq, Repr

/-- Result of `get_identifier_reference`:
`regBinding` stands for a lookup result with a non-NULL `ref.value` pointing
into the value stack registers (open declarative record fast path),
`declProp` for a non-NULL `ref.value` pointing at a declarative record's own
property, `objBinding holder` for an object-record hit (`ref.value == NULL`,
`ref.holder` = the target object), `notFound` for a failed lookup. -/
inductive IdLookupResult where
  | regBinding
  | declProp
  | objBinding (holder : HObject)
  | notFound
deriving DecidableEq, Repr

/-- `get_identifier_reference` (duk_js_var.c), with parent traversal: walk the
chain; for an open declarative record first try the register-bound names, then
own properties; for an object record do a full has-property on the target. -/
def get_identifier_reference (name : Nat) : List EnvRec → IdLookupResult
  | [] => .notFound
  | .decl envClosed regNames props :: parents =>
      if !envClosed && regNames.contains name then
        .regBinding
      else if (props.lookup name).isSome then
        .declProp
      else
        get_identifier_reference name parents
  | .obj target :: parents =>
      if duk_hobject_hasprop_raw target name then
        .objBinding target
      else
        get_identifier_reference name parents

/-- `delvar_helper` (duk_js_var.c): a register binding is not deletable
(returns 0); an object-held binding delegates to a non-strict
`duk_hobject_delprop_raw`; an unresolved identifier is a silent success
(returns 1).  A declarative record's own property also resolves with a
non-NULL `ref.value` and returns 0. -/
def delvar_helper (name : Nat) (chain : List EnvRec) : Option Bool :=
  match get_identifier_reference name chain with
  | .regBinding => some false
  | .declProp => some false
  | .objBinding holder =>
      (duk_hobject_delprop_raw holder name false).map Prod.fst
  | .notFound => some true

/-- C9: `delvar` returns false for a register-bound binding, true silently
when the name is unresolved in the whole chain, and for an object-held
binding the result of a non-strict delete on the holder (false exactly for a
non-configurable own property); none of these paths throws (`delvar_helper`
never returns `none`). -/
theorem delvar_helper_cases (name : Nat) (chain : List EnvRec)
    (holder : HObject) :
    (get_identifier_reference name chain = .regBinding →
       delvar_helper name chain = some false) ∧
    (get_identifier_reference name chain = .notFound →
       delvar_helper name chain = some true) ∧
    (get_identifier_reference name chain = .objBinding holder →
       delvar_helper name chain =
         some (((holder.ownProps.lookup name).getD true))) ∧
    delvar_helper name chain ≠ none := by
  refine ⟨fun h => by simp [delvar_helper, h], fun h => by simp [delvar_helper, h],
    fun h => ?_, ?_⟩
  · simp only [delvar_helper, h, duk_hobject_delprop_raw]
    cases hl : holder.ownProps.lookup name with
    | none => simp
    | some configurable => cases configurable <;> simp
  · unfold delvar_helper
    cases h : get_identifier_reference name chain with
    | regBinding => simp
    | declProp => simp
    | notFound => simp
    | objBinding holder2 =>
        simp only [duk_hobject_delprop_raw]
        cases hl : holder2.ownProps.lookup name with
        | none => simp
        | some configurable => cases configurable <;> simp

/-- Witness for `delvar_helper_cases`: a chain whose object record's target
holds the name as a non-configurable own property; delete returns false. -/
theorem delvar_helper_cases_witness :
    get_identifier_reference 4 [EnvRec.obj ⟨[(4, false)], []⟩] =
      .objBinding ⟨[(4, false)], []⟩ ∧
    delvar_helper 4 [EnvRec.obj ⟨[(4, false)], []⟩] = some false := by
  constructor
  · decide
  · have := (delvar_helper_cases 4 [EnvRec.obj ⟨[(4, false)], []⟩]
      ⟨[(4, false)], []⟩).2.2.1 (by decide)
    simpa using this

/-! ## C2 / C6: reference counting, refzero list, mark-and-sweep interlock

Embedding of `queue_refzero`, `refzero_free_pending` and
`duk_heap_heaphdr_decref` (duk_heap_refcount.c) together with the
`MARKANDSWEEP_RUNNING` window discipline of `duk_heap_mark_and_sweep`
(duk_heap_markandsweep.c).

Heap objects are `Nat` identities with a header-info record.  The intrusive
heap lists become explicit lists of identities; freeing appends to `freed`.
A finalizer call (`duk_hobject_run_finalizer`, whose source file is not among
the provided sources; it runs the `_finalizer` property in a protected call
and never longjmps) has arbitrary script side effects, abstracted by an
oracle giving the object's refcount after the finalizer returns and the
objects enqueued to the refzero tail while it ran.  The member decrefs of
`refcount_finalize_hobject` run with `REFZERO_FREE_RUNNING` set, so they only
enqueue to the tail; they are likewise abstracted by an oracle component.
The voluntary mark-and-sweep trigger counter at the end of
`refzero_free_pending` is not modelled (none of the claims concerns it). -/

inductive DukHType where
  | hstring
  | hobject
  | hbuffer
deriving DecidableEq, Repr

structure HeaphdrInfo where
  htype : DukHType
  refcount : Nat
  /-- the `DUK_HEAPHDR_FLAG_FINALIZED` heap flag -/
  finalized : Bool
  /-- `duk_hobject_hasprop_raw(thr, obj, _finalizer)` -/
  hasFinalizerProp : Bool
deriving DecidableEq, Repr

structure DukHeap where
  markandsweep_running : Bool
  refzero_free_running : Bool
  heap_allocated : List Nat
  refzero_list : List Nat
  freed : List Nat
  /-- identities of objects whose finalizer was invoked, in invocation order -/
  finalizer_invocations : List Nat
  /-- number of non-skipped entries into the refzero churn loop -/
  refzero_runs : Nat
  objs : List (Nat × HeaphdrInfo)
deriving DecidableEq, Repr

def updateInfo (objs : List (Nat × HeaphdrInfo)) (i : Nat)
    (f : HeaphdrInfo → HeaphdrInfo) : List (Nat × HeaphdrInfo) :=
  objs.map (fun kv => if kv.1 = i then (kv.1, f kv.2) else kv)

/-- Side effects of running finalizers and of the member decrefs done while
freeing (both happen under `REFZERO_FREE_RUNNING`, so refzero work is only
enqueued, never processed inline). -/
structure RefzeroOracle where
  refcountAfterFinalizer : Nat → Nat
  enqueuedByFinalizer : Nat → List Nat
  enqueuedByFree : Nat → List Nat

/-- `queue_refzero`: tail insert, leaving the head stable. -/
def queue_refzero (heap : DukHeap) (h : Nat) : DukHeap :=
  { heap with refzero_list := heap.refzero_list ++ [h] }

/-- One iteration of the `refzero_free_pending` churn loop, for head object
`h1` (the C code reads the head, checks for a `_finalizer` property — the
`FINALIZED` flag is not consulted — runs the finalizer if present, then
removes the head and either rescues it back to `heap_allocated` (refcount
nonzero after the finalizer) or refcount-finalizes and frees it). -/
def refzero_step (orc : RefzeroOracle) (heap : DukHeap) (h1 : Nat) : DukHeap :=
  match heap.objs.lookup h1 with
  | none => { heap with refzero_list := heap.refzero_list.tail }
  | some info =>
    let st :=
      if info.hasFinalizerProp then
        let rcAfter := orc.refcountAfterFinalizer h1
        ({ heap with
            finalizer_invocations := heap.finalizer_invocations ++ [h1],
            objs := updateInfo heap.objs h1 (fun i => { i with refcount := rcAfter }),
            refzero_list := heap.refzero_list ++ orc.enqueuedByFinalizer h1 },
         rcAfter != 0)
      else
        (heap, false)
    let heap2 := { st.1 with refzero_list := st.1.refzero_list.tail }
    if st.2 then
      { heap2 with heap_allocated := h1 :: heap2.heap_allocated }
    else
      { heap2 with freed := heap2.freed ++ [h1],
                   refzero_list := heap2.refzero_list ++ orc.enqueuedByFree h1 }

/-- The churn loop of `refzero_free_pending`: process head objects until the
refzero list is empty (bounded by fuel, since finalizers may enqueue). -/
def refzero_churn : Nat → RefzeroOracle → DukHeap → DukHeap
  | 0, _, heap => heap
  | fuel + 1, orc, heap =>
      match heap.refzero_list with
      | [] => heap
      | h1 :: _ => refzero_churn fuel orc (refzero_step orc heap h1)

/-- `refzero_free_pending`: skip when re-entered (`REFZERO_FREE_RUNNING`),
else churn the refzero list until empty. -/
def refzero_free_pending (fuel : Nat) (orc : RefzeroOracle) (heap : DukHeap) :
    DukHeap :=
  if heap.refzero_free_running then
    heap
  else
    let heap1 := { heap with refzero_free_running := true,
                             refzero_runs := heap.refzero_runs + 1 }
    let heap2 := refzero_churn fuel orc heap1
    { heap2 with refzero_free_running := false }

/-- `duk_heap_heaphdr_decref`: decrement; on reaching refcount zero, do
nothing further while `MARKANDSWEEP_RUNNING` is set; otherwise unlink and
free (strings, buffers) or queue to the refzero list and run the pending
loop (objects). -/
def duk_heap_heaphdr_decref (fuel : Nat) (orc : RefzeroOracle)
    (heap : DukHeap) (h : Nat) : DukHeap :=
  match heap.objs.lookup h with
  | none => heap
  | some info =>
    let rc := info.refcount - 1
    let heap1 := { heap with
      objs := updateInfo heap.objs h (fun i => { i with refcount := rc }) }
    if rc ≠ 0 then
      heap1
    else if heap1.markandsweep_running then
      heap1
    else
      match info.htype with
      | .hstring =>
          { heap1 with freed := heap1.freed ++ [h] }
      | .hobject =>
          let heap2 := { heap1 with
            heap_allocated := heap1.heap_allocated.filter (· ≠ h) }
          refzero_free_pending fuel orc (queue_refzero heap2 h)
      | .hbuffer =>
          { heap1 with
            heap_allocated := heap1.heap_allocated.filter (· ≠ h),
            freed := heap1.freed ++ [h] }

/-- The `MARKANDSWEEP_RUNNING` window of `duk_heap_mark_and_sweep`: the flag
is set before root marking and cleared only after `run_object_finalizers`;
`events` abstracts the sequence of objects decref'd by the phases running
inside the window (refcount finalization of swept objects, finalizer calls). -/
def duk_heap_mark_and_sweep_window (fuel : Nat) (orc : RefzeroOracle)
    (heap : DukHeap) (events : List Nat) : DukHeap :=
  let h1 := { heap with markandsweep_running := true }
  let h2 := events.foldl (fun acc i => duk_heap_heaphdr_decref fuel orc acc i) h1
  { h2 with markandsweep_running := false }

/-- While `MARKANDSWEEP_RUNNING` is set, a decref leaves the interlock flag
and every heap list untouched (only the stored refcount changes). -/
theorem decref_msrunning_inv (fuel : Nat) (orc : RefzeroOracle)
    (heap : DukHeap) (h : Nat) (hms : heap.markandsweep_running = true) :
    (duk_heap_heaphdr_decref fuel orc heap h).markandsweep_running = true ∧
    (duk_heap_heaphdr_decref fuel orc heap h).refzero_list = heap.refzero_list ∧
    (duk_heap_heaphdr_decref fuel orc heap h).heap_allocated = heap.heap_allocated ∧
    (duk_heap_heaphdr_decref fuel orc heap h).freed = heap.freed ∧
    (duk_heap_heaphdr_decref fuel orc heap h).finalizer_invocations =
      heap.finalizer_invocations ∧
    (duk_heap_heaphdr_decref fuel orc heap h).refzero_runs = heap.refzero_runs := by
  unfold duk_heap_heaphdr_decref
  cases hlk : heap.objs.lookup h with
  | none => simp [hms]
  | some info =>
      by_cases hrc : info.refcount - 1 ≠ 0
      · simp [hrc, hms]
      · simp [hrc, hms]

theorem foldl_decref_msrunning_inv (fuel : Nat) (orc : RefzeroOracle)
    (events : List Nat) :
    ∀ heap : DukHeap, heap.markandsweep_running = true →
      ((events.foldl (fun acc i => duk_heap_heaphdr_decref fuel orc acc i)
          heap).markandsweep_running = true ∧
       (events.foldl (fun acc i => duk_heap_heaphdr_decref fuel orc acc i)
          heap).refzero_list = heap.refzero_list ∧
       (events.foldl (fun acc i => duk_heap_heaphdr_decref fuel orc acc i)
          heap).refzero_runs = heap.refzero_runs) := by
  induction events with
  | nil => intro heap hms; exact ⟨hms, rfl, rfl⟩
  | cons e es ih =>
      intro heap hms
      have hstep := decref_msrunning_inv fuel orc heap e hms
      have := ih (duk_heap_heaphdr_decref fuel orc heap e) hstep.1
      refine ⟨this.1, ?_, ?_⟩
      · simpa [List.foldl_cons, this.2.1] using hstep.2.1
      · simpa [List.foldl_cons, this.2.2] using hstep.2.2.2.2.2

/-- C6: while the `MARKANDSWEEP_RUNNING` heap flag is set, a decref that
drops an object's refcount to zero returns without unlinking the object from
`heap_allocated`, without queueing it to the refzero list and without freeing
it (only the stored refcount changes); consequently over the whole
mark-and-sweep window — the flag is set from before root marking until after
`run_object_finalizers` — no sequence of decrefs performs any refzero
processing (the refzero list and the count of refzero-loop runs are
unchanged). -/
theorem markandsweep_running_blocks_refzero (fuel : Nat) (orc : RefzeroOracle)
    (heap : DukHeap) (h : Nat) (info : HeaphdrInfo) (events : List Nat)
    (hms : heap.markandsweep_running = true)
    (hlk : heap.objs.lookup h = some info)
    (hrc : info.refcount = 1) :
    ((duk_heap_heaphdr_decref fuel orc heap h).refzero_list =
       heap.refzero_list ∧
     (duk_heap_heaphdr_decref fuel orc heap h).heap_allocated =
       heap.heap_allocated ∧
     (duk_heap_heaphdr_decref fuel orc heap h).freed = heap.freed ∧
     (duk_heap_heaphdr_decref fuel orc heap h).refzero_runs =
       heap.refzero_runs ∧
     (duk_heap_heaphdr_decref fuel orc heap h).objs =
       updateInfo heap.objs h (fun i => { i with refcount := 0 })) ∧
    ((duk_heap_mark_and_sweep_window fuel orc heap events).refzero_list =
       heap.refzero_list ∧
     (duk_heap_mark_and_sweep_window fuel orc heap events).refzero_runs =
       heap.refzero_runs) := by
  constructor
  · have hinv := decref_msrunning_inv fuel orc heap h hms
    refine ⟨hinv.2.1, hinv.2.2.1, hinv.2.2.2.1, hinv.2.2.2.2.2, ?_⟩
    unfold duk_heap_heaphdr_decref
    simp [hlk, hrc, hms]
  · have := foldl_decref_msrunning_inv fuel orc events
      { heap with markandsweep_running := true } rfl
    exact ⟨this.2.1, this.2.2⟩

/-- Witness for `markandsweep_running_blocks_refzero`: a heap in the middle
of a mark-and-sweep cycle with one object whose refcount drops to zero. -/
theorem markandsweep_running_blocks_refzero_witness :
    (DukHeap.markandsweep_running
      ⟨true, false, [1], [], [], [], 0, [(1, ⟨.hobject, 1, false, false⟩)]⟩
      = true) ∧
    ((duk_heap_heaphdr_decref 4 ⟨fun _ => 0, fun _ => [], fun _ => []⟩
        ⟨true, false, [1], [], [], [], 0, [(1, ⟨.hobject, 1, false, false⟩)]⟩
        1).refzero_list = [] ∧
     (duk_heap_heaphdr_decref 4 ⟨fun _ => 0, fun _ => [], fun _ => []⟩
        ⟨true, false, [1], [], [], [], 0, [(1, ⟨.hobject, 1, false, false⟩)]⟩
        1).heap_allocated = [1]) := by
  refine ⟨rfl, ?_, ?_⟩
  · exact (markandsweep_running_blocks_refzero 4
      ⟨fun _ => 0, fun _ => [], fun _ => []⟩
      ⟨true, false, [1], [], [], [], 0, [(1, ⟨.hobject, 1, false, false⟩)]⟩
      1 ⟨.hobject, 1, false, false⟩ [] rfl rfl rfl).1.1
  · exact (markandsweep_running_blocks_refzero 4
      ⟨fun _ => 0, fun _ => [], fun _ => []⟩
      ⟨true, false, [1], [], [], [], 0, [(1, ⟨.hobject, 1, false, false⟩)]⟩
      1 ⟨.hobject, 1, false, false⟩ [] rfl rfl rfl).1.2.1

/-- C2 counterexample: an object that reaches the head of the refzero list
with the `FINALIZED` flag already set (it was finalized by an earlier
mark-and-sweep pass) and still has a finalizer property.  The refzero driver
loop checks only for the presence of the finalizer property — the `FINALIZED`
flag is never consulted (`refzero_free_pending`'s own FIXME records this) —
so the finalizer is invoked again, contradicting the claim that such an
object bypasses finalizer invocation. -/
theorem refzero_finalized_object_refinalized :
    ((List.lookup 1
        (DukHeap.objs
          ⟨false, false, [], [1], [], [], 0,
            [(1, ⟨.hobject, 0, true, true⟩)]⟩)).map HeaphdrInfo.finalized =
      some true) ∧
    (refzero_free_pending 2 ⟨fun _ => 0, fun _ => [], fun _ => []⟩
        ⟨false, false, [], [1], [], [], 0,
          [(1, ⟨.hobject, 0, true, true⟩)]⟩).finalizer_invocations = [1] := by
  constructor
  · rfl
  · rfl

/-- C2 (amended): during refzero processing, finalizer invocation is gated
only by the presence of a finalizer property — the `FINALIZED` flag is not
consulted, so an already-finalized object with a finalizer property has its
finalizer invoked again.  After the finalizer the object is rescued back to
`heap_allocated` exactly when its refcount is nonzero at inspection, and
freed otherwise; an object without a finalizer property is freed directly. -/
theorem refzero_step_finalizer_policy (orc : RefzeroOracle) (heap : DukHeap)
    (h1 : Nat) (rest : List Nat) (info : HeaphdrInfo)
    (hhead : heap.refzero_list = h1 :: rest)
    (hlk : heap.objs.lookup h1 = some info) :
    ((refzero_step orc heap h1).finalizer_invocations =
       heap.finalizer_invocations ++
         (if info.hasFinalizerProp then [h1] else [])) ∧
    (info.hasFinalizerProp = false →
       (refzero_step orc heap h1).freed = heap.freed ++ [h1] ∧
       (refzero_step orc heap h1).refzero_list =
         rest ++ orc.enqueuedByFree h1) ∧
    (info.hasFinalizerProp = true → orc.refcountAfterFinalizer h1 ≠ 0 →
       (refzero_step orc heap h1).heap_allocated =
         h1 :: heap.heap_allocated ∧
       (refzero_step orc heap h1).freed = heap.freed) ∧
    (info.hasFinalizerProp = true → orc.refcountAfterFinalizer h1 = 0 →
       (refzero_step orc heap h1).freed = heap.freed ++ [h1]) := by
  unfold refzero_step
  cases hfin : info.hasFinalizerProp with
  | false =>
      refine ⟨?_, fun _ => ⟨?_, ?_⟩, fun hc => absurd hc (by simp [hfin]),
        fun hc => absurd hc (by simp [hfin])⟩ <;>
        simp [hlk, hfin, hhead]
  | true =>
      cases hrc : orc.refcountAfterFinalizer h1 with
      | zero =>
          refine ⟨?_, fun hc => by simp [hfin] at hc,
            fun _ hne => absurd rfl hne, fun _ _ => ?_⟩ <;>
            simp [hlk, hfin, hrc, hhead]
      | succ n =>
          refine ⟨?_, fun hc => by simp [hfin] at hc,
            fun _ _ => ⟨?_, ?_⟩, fun _ hz => by simp at hz⟩ <;>
            simp [hlk, hfin, hrc, hhead]

/-- Witness for `refzero_step_finalizer_policy`: head object without a
finalizer property is freed directly. -/
theorem refzero_step_finalizer_policy_witness :
    (DukHeap.refzero_list
       ⟨false, true, [], [2], [], [], 1,
         [(2, ⟨.hobject, 0, false, false⟩)]⟩ = [2]) ∧
    (refzero_step ⟨fun _ => 0, fun _ => [], fun _ => []⟩
       ⟨false, true, [], [2], [], [], 1,
         [(2, ⟨.hobject, 0, false, false⟩)]⟩ 2).freed = [2] := by
  refine ⟨rfl, ?_⟩
  have := (refzero_step_finalizer_policy
    ⟨fun _ => 0, fun _ => [], fun _ => []⟩
    ⟨false, true, [], [2], [], [], 1, [(2, ⟨.hobject, 0, false, false⟩)]⟩
    2 [] ⟨.hobject, 0, false, false⟩ rfl rfl).2.1 rfl
  simpa using this.1

/-! ## C3: Dragon4 free-format termination conditions

Embedding of the termination conditions of `dragon4_generate`
(duk_numconv.c).  The fixed-size bigints (`duk_bigint`, non-negative, ≤ 1184
bits, caller-guaranteed in range) are modelled by their `Nat` values; at the
point the conditions are evaluated, `r` already holds the remainder of
`(r·B) / s` and `m+`, `m-` have been multiplied by `B`.

The low condition in the source is
  `tc1 = (bi_compare(&nc_ctx->r, &nc_ctx->mm) <= (nc_ctx->low_ok ? 0 : -1))`,
but the high condition is
  `tc2 = (bi_compare(&nc_ctx->t1, &nc_ctx->s) >= (&nc_ctx->high_ok ? 0 : 1))`:
the ternary condition is the ADDRESS of the `high_ok` field, which is always
non-null, so the right-hand side is the constant 0 no matter what `high_ok`
holds.  The embedding reproduces this faithfully. -/

/-- `bi_compare` by bigint value: 1, -1 or 0. -/
def bi_compare (x y : Nat) : Int :=
  if x > y then 1 else if x < y then -1 else 0

/-- `bi_is_even`: low bit of the low part (zero is even). -/
def bi_is_even (x : Nat) : Bool := x % 2 = 0

/-- `dragon4_prepare`'s round-to-even setup: both `low_ok` and `high_ok` are
set exactly when the significand `f` is even. -/
def dragon4_prepare_low_high_ok (f : Nat) : Bool × Bool :=
  if bi_is_even f then (true, true) else (false, false)

/-- The low termination condition of the free-format generate loop. -/
def dragon4_gen_tc1 (r mm : Nat) (low_ok : Bool) : Bool :=
  bi_compare r mm ≤ (if low_ok then 0 else -1)

/-- The high termination condition of the free-format generate loop, as the
source computes it: `&nc_ctx->high_ok` (the field's address) is always
truthy, so the comparison offset is 0 — inclusive — regardless of `high_ok`.
The (unused) `high_ok` parameter is kept to mirror the source's intent. -/
def dragon4_gen_tc2 (r mp s : Nat) (high_ok : Bool) : Bool :=
  bi_compare (r + mp) s ≥ (if (some high_ok).isSome then 0 else 1)

/-- The high termination condition as the claim (and the symmetric Dragon4
algorithm) states it: inclusive exactly when `high_ok` is set. -/
def dragon4_gen_tc2_claimed (r mp s : Nat) (high_ok : Bool) : Bool :=
  bi_compare (r + mp) s ≥ (if high_ok then 0 else 1)

/-- C3: the low termination condition does honor `low_ok` (`r ≤ m-` when set,
`r < m-` otherwise), but the high termination condition is the inclusive
`r + m+ ≥ s` for every value of `high_ok`, because the source compares the
ADDRESS of the `high_ok` field rather than its value; at `r=1, m+=2, s=3`
with an odd significand (`high_ok` unset) the code terminates inclusively
where the claimed strict comparison would continue. -/
theorem dragon4_generate_high_condition_ignores_high_ok :
    (∀ r mm : Nat, dragon4_gen_tc1 r mm true = decide (r ≤ mm) ∧
       dragon4_gen_tc1 r mm false = decide (r < mm)) ∧
    (∀ r mp s : Nat, ∀ high_ok : Bool,
       dragon4_gen_tc2 r mp s high_ok = decide (s ≤ r + mp)) ∧
    (dragon4_prepare_low_high_ok 3 = (false, false) ∧
     dragon4_gen_tc2 1 2 3 false = true ∧
     dragon4_gen_tc2_claimed 1 2 3 false = false) := by
  refine ⟨fun r mm => ⟨?_, ?_⟩, fun r mp s high_ok => ?_, by decide, by decide,
    by decide⟩
  · simp only [dragon4_gen_tc1, bi_compare, decide_eq_decide]
    split_ifs <;> simp_all
  · simp only [dragon4_gen_tc1, bi_compare, decide_eq_decide]
    split_ifs <;> simp_all <;> omega
  · simp only [dragon4_gen_tc2, bi_compare, Option.isSome_some,
      decide_eq_decide]
    split_ifs <;> simp_all <;> omega

/-! ## C1: protected (safe) C calls

Embedding of `safe_call_adjust_valstack` and `duk_handle_safe_call`
(duk_js_call.c).  The value stack is the list of slots of the current frame
(index 0 = the entry `valstack_bottom`, which `duk_handle_safe_call` restores
on the error path before any stack manipulation).  The value-stack API
primitives used by the handler live in a source file that is not among the
provided sources and are modelled from the spec (4.7 Repositioning /
Push-pop): `set_top` truncates or pads with undefined, `remove(i)` deletes
the slot at `i`, `insert(i)` moves the top slot to position `i`. -/

/-- Modelled from the spec: `duk_set_top` (value-stack API source file not
provided): truncate to `n` slots or extend with `undefined`. -/
def duk_set_top (stack : List DukTval) (n : Nat) : List DukTval :=
  if n ≤ stack.length then stack.take n
  else stack ++ List.replicate (n - stack.length) .undefined

/-- Modelled from the spec: `duk_remove(i)`: delete the slot at index `i`. -/
def duk_remove (stack : List DukTval) (i : Nat) : List DukTval :=
  stack.eraseIdx i

/-- Modelled from the spec: `duk_insert(i)`: move the top slot to index `i`,
shifting the slots above upwards. -/
def duk_insert (stack : List DukTval) (i : Nat) : List DukTval :=
  match stack.getLast? with
  | none => stack
  | some v => stack.dropLast.insertIdx i v

/-- The `duk_remove(ctx, idx_retbase)` loop of `safe_call_adjust_valstack`. -/
def safe_call_remove_loop (i : Nat) : Nat → List DukTval → List DukTval
  | 0, stack => stack
  | count + 1, stack => safe_call_remove_loop i count (duk_remove stack i)

/-- The `duk_push_undefined(); duk_insert(ctx, idx_rcbase)` loop of
`safe_call_adjust_valstack`. -/
def safe_call_insert_loop (i : Nat) : Nat → List DukTval → List DukTval
  | 0, stack => stack
  | count + 1, stack =>
      safe_call_insert_loop i count (duk_insert (stack ++ [.undefined]) i)

/-- `safe_call_adjust_valstack`: leave exactly `num_stack_rets` return values
at `idx_retbase`, given `num_actual_rets` return values on the stack top. -/
def safe_call_adjust_valstack (stack : List DukTval)
    (idx_retbase num_stack_rets num_actual_rets : Nat) : List DukTval :=
  let idx_rcbase := stack.length - num_actual_rets
  let stack1 := duk_set_top stack (idx_rcbase + num_stack_rets)
  if idx_retbase ≤ idx_rcbase then
    safe_call_remove_loop idx_retbase (idx_rcbase - idx_retbase) stack1
  else
    safe_call_insert_loop idx_rcbase (idx_retbase - idx_rcbase) stack1

/-- Behavior of the wrapped C function: either a normal return with a return
code and the value stack it left behind (the call/catch stacks are back at
their entry values, as the handler asserts), or a longjmp throw caught by the
handler's catchpoint, with the error value, the crud left on the value stack,
and however much the call/catch stacks had grown when the error fired. -/
inductive SafeCallFuncResult where
  | ret (rc : Int) (stack : List DukTval)
  | longjmpThrow (errval : DukTval) (crud : List DukTval)
      (callstackGrowth catchstackGrowth : Nat)

structure SafeCallOutcome where
  stack : List DukTval
  callstack_top : Nat
  catchstack_top : Nat
  success : Bool
deriving DecidableEq, Repr

/-- `duk_handle_safe_call`: run `func` in the current activation under a
fresh catchpoint.  A negative return code is translated into a throw
(`duk_error_throw_from_negative_rc`), and a return code exceeding the stack
top raises an API error; both longjmps are caught by the handler's own
catchpoint, which unwinds the catch/call stacks to their entry tops, restores
the entry value-stack bottom, pushes the error value and adjusts the stack to
the requested shape.  `none` is returned only for the blatant argument error
`idx_retbase < 0`, which invokes the *previous* catchpoint instead of
returning.  (`err_from_rc` and `api_error` stand for the error objects built
by the error machinery, whose construction the claim does not depend on.) -/
def duk_handle_safe_call (entry_callstack_top entry_catchstack_top : Nat)
    (stack : List DukTval) (num_stack_args num_stack_rets : Nat)
    (func : List DukTval → SafeCallFuncResult)
    (err_from_rc : Int → DukTval) (api_error : DukTval) :
    Option SafeCallOutcome :=
  if stack.length < num_stack_args then
    none
  else
    let idx_retbase := stack.length - num_stack_args
    match func stack with
    | .longjmpThrow errval crud _ _ =>
        some ⟨safe_call_adjust_valstack (crud ++ [errval]) idx_retbase
                num_stack_rets 1,
              entry_callstack_top, entry_catchstack_top, false⟩
    | .ret rc fstack =>
        if rc < 0 then
          some ⟨safe_call_adjust_valstack (fstack ++ [err_from_rc rc])
                  idx_retbase num_stack_rets 1,
                entry_callstack_top, entry_catchstack_top, false⟩
        else if fstack.length < rc.toNat then
          some ⟨safe_call_adjust_valstack (fstack ++ [api_error]) idx_retbase
                  num_stack_rets 1,
                entry_callstack_top, entry_catchstack_top, false⟩
        else
          some ⟨safe_call_adjust_valstack fstack idx_retbase num_stack_rets
                  rc.toNat,
                entry_callstack_top, entry_catchstack_top, true⟩

theorem insertIdx_take_cons_drop (a : DukTval) :
    ∀ (i : Nat) (l : List DukTval), i ≤ l.length →
      l.insertIdx i a = l.take i ++ a :: l.drop i := by
  intro i
  induction i with
  | zero => intro l _; simp
  | succ n ih =>
      intro l hl
      cases l with
      | nil => simp at hl
      | cons x xs =>
          simp only [List.insertIdx_succ_cons, List.take_succ_cons,
            List.drop_succ_cons, List.cons_append, List.cons.injEq, true_and]
          exact ih xs (by simpa using hl)

theorem safe_call_remove_loop_eq :
    ∀ (count : Nat) (stack : List DukTval) (i : Nat),
      i + count ≤ stack.length →
      safe_call_remove_loop i count stack =
        stack.take i ++ stack.drop (i + count) := by
  intro count
  induction count with
  | zero => intro stack i _; simp [safe_call_remove_loop]
  | succ c ih =>
      intro stack i h
      have hi : i < stack.length := by omega
      rw [safe_call_remove_loop, duk_remove, List.eraseIdx_eq_take_drop_succ,
        ih _ i (by simp [List.length_take, List.length_drop]; omega)]
      have htake : (stack.take i ++ stack.drop (i + 1)).take i = stack.take i := by
        rw [List.take_append_of_le_length (by simp [List.length_take]; omega),
          List.take_take]
        simp
      have hdrop : (stack.take i ++ stack.drop (i + 1)).drop (i + c) =
          stack.drop (i + (c + 1)) := by
        have hlen : (stack.take i).length = i := by
          simp [List.length_take]; omega
        rw [List.drop_append_eq_append_drop, hlen]
        have : (stack.take i).drop (i + c) = [] := by
          apply List.drop_eq_nil_of_le; omega
        rw [this, List.drop_drop]
        simp only [List.nil_append]
        congr 1
        omega
      rw [htake, hdrop]

theorem safe_call_insert_loop_eq :
    ∀ (count : Nat) (stack : List DukTval) (i : Nat),
      i ≤ stack.length →
      safe_call_insert_loop i count stack =
        stack.take i ++ List.replicate count .undefined ++ stack.drop i := by
  intro count
  induction count with
  | zero => intro stack i _; simp [safe_call_insert_loop]
  | succ c ih =>
      intro stack i h
      have hstep : duk_insert (stack ++ [.undefined]) i =
          stack.take i ++ DukTval.undefined :: stack.drop i := by
        rw [duk_insert]
        simp only [List.getLast?_concat, List.dropLast_concat]
        exact insertIdx_take_cons_drop _ i stack h
      rw [safe_call_insert_loop, hstep,
        ih _ i (by simp [List.length_take]; omega)]
      have hlen : (stack.take i).length = i := by
        simp [List.length_take]; omega
      rw [List.take_left' hlen, List.drop_left' hlen, List.append_assoc,
        List.append_assoc]
      congr 1
      rw [List.replicate_succ', List.append_assoc, List.singleton_append]

theorem duk_set_top_length (stack : List DukTval) (n : Nat) :
    (duk_set_top stack n).length = n := by
  unfold duk_set_top
  split_ifs with h
  · simp [List.length_take]; omega
  · simp [List.length_append, List.length_replicate]; omega

theorem duk_set_top_of_ge (stack : List DukTval) (n : Nat)
    (h : stack.length ≤ n) :
    duk_set_top stack n =
      stack ++ List.replicate (n - stack.length) .undefined := by
  unfold duk_set_top
  split_ifs with h2
  · have : n = stack.length := by omega
    simp [this]
  · rfl

theorem safe_call_adjust_valstack_length (stack : List DukTval)
    (idx_retbase num_stack_rets num_actual_rets : Nat)
    (h : num_actual_rets ≤ stack.length) :
    (safe_call_adjust_valstack stack idx_retbase num_stack_rets
        num_actual_rets).length = idx_retbase + num_stack_rets := by
  unfold safe_call_adjust_valstack
  dsimp only
  set rcb := stack.length - num_actual_rets with hrcb
  have hlen1 : (duk_set_top stack (rcb + num_stack_rets)).length =
      rcb + num_stack_rets := duk_set_top_length _ _
  split_ifs with hb
  · rw [safe_call_remove_loop_eq _ _ _ (by omega)]
    simp only [List.length_append, List.length_take, List.length_drop, hlen1]
    omega
  · rw [safe_call_insert_loop_eq _ _ _ (by omega)]
    simp only [List.length_append, List.length_take, List.length_replicate,
      List.length_drop, hlen1]
    omega

theorem safe_call_adjust_valstack_error_drop (crud : List DukTval)
    (e : DukTval) (idx_retbase num_stack_rets : Nat)
    (hrets : 1 ≤ num_stack_rets) :
    (safe_call_adjust_valstack (crud ++ [e]) idx_retbase num_stack_rets
        1).drop idx_retbase =
      e :: List.replicate (num_stack_rets - 1) .undefined := by
  have hlen : (crud ++ [e]).length = crud.length + 1 := by simp
  have hrcb : (crud ++ [e]).length - 1 = crud.length := by omega
  have hBlen : (e :: List.replicate (num_stack_rets - 1)
      (DukTval.undefined)).length = num_stack_rets := by
    simp [List.length_replicate]; omega
  have hst : duk_set_top (crud ++ [e]) (crud.length + num_stack_rets) =
      crud ++ (e :: List.replicate (num_stack_rets - 1) .undefined) := by
    rw [duk_set_top_of_ge _ _ (by omega), List.append_assoc]
    congr 1
    rw [List.singleton_append, hlen]
    congr 2
    omega
  unfold safe_call_adjust_valstack
  dsimp only
  rw [hrcb, hst]
  split_ifs with hb
  · rw [safe_call_remove_loop_eq _ _ _
      (by simp only [List.length_append, hBlen]; omega)]
    have h1 : idx_retbase + (crud.length - idx_retbase) = crud.length := by
      omega
    rw [h1, List.drop_left]
    have h2 : ((crud ++ (e :: List.replicate (num_stack_rets - 1)
        (DukTval.undefined))).take idx_retbase).length = idx_retbase := by
      simp only [List.length_take, List.length_append, hBlen]
      omega
    rw [List.drop_left' h2]
  · rw [safe_call_insert_loop_eq _ _ _
      (by simp only [List.length_append, hBlen]; omega)]
    rw [List.take_append_of_le_length (Nat.le_refl _), List.take_length,
      List.drop_left]
    have h5 : (crud ++ List.replicate (idx_retbase - crud.length)
        (DukTval.undefined)).length = idx_retbase := by
      simp only [List.length_append, List.length_replicate]
      omega
    rw [List.drop_left' h5]

/-- C1: whenever `duk_handle_safe_call` returns — the wrapped function
succeeded, returned a negative (error) code, returned an rc exceeding the
stack top, or threw and the error was caught — the value-stack top equals
`idx_retbase + num_stack_rets`; the call stack and catch stack are back at
their entry tops; and in every error case (given at least one requested
return value) the caught error value sits at `idx_retbase`, followed by
`num_stack_rets - 1` undefined values. -/
theorem duk_handle_safe_call_stack_shape (entry_cs entry_cat : Nat)
    (stack : List DukTval) (num_stack_args num_stack_rets : Nat)
    (func : List DukTval → SafeCallFuncResult)
    (err_from_rc : Int → DukTval) (api_error : DukTval)
    (outcome : SafeCallOutcome)
    (hargs : num_stack_args ≤ stack.length)
    (hcall : duk_handle_safe_call entry_cs entry_cat stack num_stack_args
        num_stack_rets func err_from_rc api_error = some outcome) :
    outcome.stack.length = (stack.length - num_stack_args) + num_stack_rets ∧
    outcome.callstack_top = entry_cs ∧
    outcome.catchstack_top = entry_cat ∧
    (outcome.success = false → 1 ≤ num_stack_rets →
       outcome.stack.drop (stack.length - num_stack_args) =
         (match func stack with
          | .longjmpThrow e _ _ _ => e
          | .ret rc _ => if rc < 0 then err_from_rc rc else api_error) ::
           List.replicate (num_stack_rets - 1) .undefined) := by
  unfold duk_handle_safe_call at hcall
  rw [if_neg (by omega)] at hcall
  dsimp only at hcall
  cases hfunc : func stack with
  | longjmpThrow e crud g1 g2 =>
      rw [hfunc] at hcall
      dsimp only at hcall
      injection hcall with hout
      subst hout
      refine ⟨safe_call_adjust_valstack_length _ _ _ _ (by simp), rfl, rfl,
        fun _ hr => ?_⟩
      simp only [hfunc]
      exact safe_call_adjust_valstack_error_drop crud e _ _ hr
  | ret rc fstack =>
      rw [hfunc] at hcall
      dsimp only at hcall
      by_cases hneg : rc < 0
      · rw [if_pos hneg] at hcall
        injection hcall with hout
        subst hout
        refine ⟨safe_call_adjust_valstack_length _ _ _ _ (by simp), rfl, rfl,
          fun _ hr => ?_⟩
        simp only [hfunc, if_pos hneg]
        exact safe_call_adjust_valstack_error_drop fstack (err_from_rc rc) _ _ hr
      · rw [if_neg hneg] at hcall
        by_cases htop : fstack.length < rc.toNat
        · rw [if_pos htop] at hcall
          injection hcall with hout
          subst hout
          refine ⟨safe_call_adjust_valstack_length _ _ _ _ (by simp), rfl, rfl,
            fun _ hr => ?_⟩
          simp only [hfunc, if_neg hneg]
          exact safe_call_adjust_valstack_error_drop fstack api_error _ _ hr
        · rw [if_neg htop] at hcall
          injection hcall with hout
          subst hout
          refine ⟨safe_call_adjust_valstack_length _ _ _ _ (by omega), rfl,
            rfl, fun hfalse _ => ?_⟩
          simp at hfalse

/-- Witness for `duk_handle_safe_call_stack_shape`: a safe call with two
stack args and two requested returns whose wrapped function succeeds with one
actual return value; the final stack has exactly `idx_retbase + 2` slots. -/
theorem duk_handle_safe_call_stack_shape_witness :
    (2 ≤ ([DukTval.number 1, DukTval.number 2] : List DukTval).length) ∧
    (duk_handle_safe_call 3 4 [DukTval.number 1, DukTval.number 2] 2 2
        (fun _ => .ret 1 [DukTval.number 42]) (fun _ => .undefined)
        .undefined =
      some ⟨[DukTval.number 42, DukTval.undefined], 3, 4, true⟩) ∧
    ([DukTval.number 42, DukTval.undefined] : List DukTval).length = 0 + 2 := by
  refine ⟨by decide, by rfl, ?_⟩
  exact (duk_handle_safe_call_stack_shape 3 4 [DukTval.number 1, DukTval.number 2]
    2 2 (fun _ => .ret 1 [DukTval.number 42]) (fun _ => .undefined) .undefined
    ⟨[DukTval.number 42, DukTval.undefined], 3, 4, true⟩ (by decide) (by rfl)).1

/-! ## C5: tail-call activation reuse

Embedding of `duk_handle_ecma_call_setup` (duk_js_call.c), covering the
tail-call branch (reuse of the topmost activation) and the non-tail branch
(push of a fresh activation), for a resolved non-bound compiled target with
`NEWENV` set and `CREATEARGS` unset (the lazy-environment case, in which the
environment-record step leaves both activation environments `NULL`).  The
value stack is absolute here; `valstack_bottom` is the caller's frame base
and the slot below it holds the caller's `this` binding. -/

structure DukActivation where
  func : Nat
  flags_strict : Bool
  flags_tailcalled : Bool
  var_env : Option Nat
  lex_env : Option Nat
  pc : Nat
  idx_bottom : Nat
  idx_retval : Nat
deriving DecidableEq, Repr

structure CompiledFunc where
  id : Nat
  strict : Bool
  nargs : Nat
  nregs : Nat
deriving DecidableEq, Repr

structure EcmaCallState where
  valstack : List DukTval
  valstack_bottom : Nat
  callstack : List DukActivation
deriving DecidableEq, Repr

def duk_handle_ecma_call_setup (toObject : DukTval → DukTval)
    (globalObj : Option Nat) (st : EcmaCallState) (f : CompiledFunc)
    (num_stack_args : Nat) (is_tailcall is_resume : Bool) :
    Option EcmaCallState :=
  let entry_valstack_bottom_index := st.valstack_bottom
  if st.valstack.length < st.valstack_bottom + num_stack_args + 2 then
    none
  else
    let idx_func := (st.valstack.length - st.valstack_bottom) -
      num_stack_args - 2
    let idx_args := idx_func + 2
    let thisIdx := st.valstack_bottom + idx_func + 1
    let thisNew := handle_coerce_effective_this_binding toObject globalObj
      f.strict (st.valstack.getD thisIdx .undefined)
    let vs := st.valstack.set thisIdx thisNew
    if is_tailcall then
      match st.callstack.getLast? with
      | none => none
      | some act0 =>
          let act1 : DukActivation :=
            { act0 with
                var_env := none
                lex_env := none
                func := f.id
                pc := 0
                flags_strict := f.strict
                flags_tailcalled := true
                idx_bottom := entry_valstack_bottom_index }
          let vs2 := vs.set (st.valstack_bottom - 1)
            (vs.getD (st.valstack_bottom + idx_func + 1) .undefined)
          let vs3 := safe_call_remove_loop st.valstack_bottom idx_args vs2
          some { valstack := vs3
                 valstack_bottom := st.valstack_bottom
                 callstack := st.callstack.dropLast ++ [act1] }
    else
      let cs1 :=
        if is_resume then
          st.callstack
        else
          match st.callstack.getLast? with
          | none => st.callstack
          | some act0 =>
              st.callstack.dropLast ++
                [{ act0 with
                     idx_retval := entry_valstack_bottom_index + idx_func }]
      let newact : DukActivation :=
        { func := f.id
          flags_strict := f.strict
          flags_tailcalled := false
          var_env := none
          lex_env := none
          pc := 0
          idx_bottom := entry_valstack_bottom_index + idx_args
          idx_retval := 0 }
      some { valstack := vs
             valstack_bottom := st.valstack_bottom
             callstack := cs1 ++ [newact] }

/-- C5: a tail call performed by the executor's call setup does not grow the
call stack — `callstack_top` is unchanged, the topmost activation record is
the same slot as before (all lower activations untouched, nothing pushed),
and its `idx_bottom` equals the caller's entry value-stack bottom index, so
the value-stack frame base does not grow. -/
theorem ecma_call_setup_tailcall_constant_space (toObject : DukTval → DukTval)
    (globalObj : Option Nat) (st : EcmaCallState) (f : CompiledFunc)
    (num_stack_args : Nat) (st' : EcmaCallState)
    (hcall : duk_handle_ecma_call_setup toObject globalObj st f
        num_stack_args true false = some st') :
    st'.callstack.length = st.callstack.length ∧
    st'.callstack.dropLast = st.callstack.dropLast ∧
    (∃ act : DukActivation, st'.callstack.getLast? = some act ∧
       act.idx_bottom = st.valstack_bottom ∧
       act.func = f.id ∧ act.flags_tailcalled = true) ∧
    st'.valstack_bottom = st.valstack_bottom := by
  unfold duk_handle_ecma_call_setup at hcall
  by_cases hroom : st.valstack.length < st.valstack_bottom + num_stack_args + 2
  · rw [if_pos hroom] at hcall
    exact absurd hcall (by simp)
  · rw [if_neg hroom] at hcall
    dsimp only at hcall
    rw [if_pos rfl] at hcall
    cases hlast : st.callstack.getLast? with
    | none => rw [hlast] at hcall; exact absurd hcall (by simp)
    | some act0 =>
        rw [hlast] at hcall
        dsimp only at hcall
        injection hcall with hout
        subst hout
        have hne : st.callstack ≠ [] := by
          intro hnil
          rw [hnil] at hlast
          simp at hlast
        refine ⟨?_, by simp,
          ⟨⟨f.id, f.strict, true, none, none, 0, st.valstack_bottom,
            act0.idx_retval⟩, by simp, rfl, rfl, rfl⟩, rfl⟩
        simp only [List.length_append, List.length_dropLast,
          List.length_singleton]
        have := List.length_pos.mpr hne
        omega

/-- Witness for `ecma_call_setup_tailcall_constant_space`: a concrete tail
call reusing the single activation; the call stack length stays 1 and the
reused activation's `idx_bottom` equals the entry value-stack bottom. -/
theorem ecma_call_setup_tailcall_constant_space_witness :
    duk_handle_ecma_call_setup (fun _ => .object 8) (some 4)
      ⟨[.undefined, .object 9, .null, .number 7], 1,
        [⟨3, false, false, none, none, 5, 1, 0⟩]⟩
      ⟨5, false, 1, 2⟩ 1 true false =
      some ⟨[.object 4, .number 7], 1,
        [⟨5, false, true, none, none, 0, 1, 0⟩]⟩ ∧
    ([(⟨5, false, true, none, none, 0, 1, 0⟩ : DukActivation)]).length =
      ([(⟨3, false, false, none, none, 5, 1, 0⟩ : DukActivation)]).length := by
  refine ⟨by rfl, ?_⟩
  have := ecma_call_setup_tailcall_constant_space (fun _ => .object 8) (some 4)
    ⟨[.undefined, .object 9, .null, .number 7], 1,
      [⟨3, false, false, none, none, 5, 1, 0⟩]⟩
    ⟨5, false, 1, 2⟩ 1
    ⟨[.object 4, .number 7], 1, [⟨5, false, true, none, none, 0, 1, 0⟩]⟩
    (by rfl)
  exact this.1

/-! ## C10 / C4: number↔string conversion (duk_numconv.c)

Doubles are modelled at the bit level: sign bit, 11-bit biased exponent,
52-bit mantissa.  The Dragon4 bigints are `Nat`s by value.  The embedding
covers the special-value and zero paths, the 32-bit-integer fast paths of
both directions, and the complete string scan of `duk_numconv_parse`; the
non-zero slow-path digit generation (prepare/scale/generate) is out of the
scope of the claims settled here and is marked by an `Option` `none`. -/

structure DukDouble where
  sign : Bool
  expBits : Nat
  mantBits : Nat
deriving DecidableEq, Repr

def DukDouble.isNan (x : DukDouble) : Bool :=
  x.expBits = 2047 && x.mantBits ≠ 0

def DukDouble.isInf (x : DukDouble) : Bool :=
  x.expBits = 2047 && x.mantBits = 0

def DukDouble.isZero (x : DukDouble) : Bool :=
  x.expBits = 0 && x.mantBits = 0

/-- Modelled from the spec: `duk_lc_digits` (declared in duk_util.h; the
defining source file is not provided): the lowercase digit table used by
`DIGITCHAR`, radix characters `0-9a-z`. -/
def duk_lc_digits : List Char :=
  "0123456789abcdefghijklmnopqrstuvwxyz".toList

def DIGITCHAR (x : Nat) : Char := duk_lc_digits.getD x '?'

/-- The backwards digit-emission loop of `dragon4_format_uint32`.  The C
buffer holds 32 characters (enough for any 32-bit value in radix 2, as the
code asserts); the fuel mirrors that bound. -/
def dragon4_format_uint32_go (radix : Nat) :
    Nat → Nat → List Char → List Char
  | 0, _, acc => acc
  | fuel + 1, x, acc =>
      let t := x / radix
      let dig := x - t * radix
      let acc1 := DIGITCHAR dig :: acc
      if t = 0 then acc1 else dragon4_format_uint32_go radix fuel t acc1

/-- `dragon4_format_uint32`: format a 32-bit unsigned value in the given
radix (most significant digit first; a zero value yields "0"). -/
def dragon4_format_uint32 (x radix : Nat) : List Char :=
  dragon4_format_uint32_go radix 33 x []

/-- The `uval = (unsigned int) x; ((double) uval) == x` test of the
number-to-string fast path, applied to the absolute value (the sign is split
off first): `some n` exactly when the double's magnitude is an integer `n`
representable in 32 bits.  (For magnitudes ≥ 2^32 and non-integers the fast
path is not taken.) -/
def duk_double_as_uint32 (x : DukDouble) : Option Nat :=
  if x.expBits = 0 then
    if x.mantBits = 0 then some 0 else none
  else if x.expBits = 2047 then
    none
  else if x.expBits < 1023 then
    none
  else
    let p := x.expBits - 1023
    if 32 ≤ p then
      none
    else if x.mantBits % 2 ^ (52 - p) = 0 then
      some ((2 ^ 52 + x.mantBits) / 2 ^ (52 - p))
    else
      none

/-- Number-to-string output flags (`DUK_N2S_FLAG_*`; the flag-constants
header is not among the provided sources, so the flag word is modelled as a
record of its four bits). -/
structure N2SFlags where
  force_exp : Bool
  no_zero_pad : Bool
  fixed_format : Bool
  fraction_digits : Bool
deriving DecidableEq, Repr

/-- `flags == 0`: no special formatting requested. -/
def N2SFlags.allClear (fl : N2SFlags) : Bool :=
  !(fl.force_exp || fl.no_zero_pad || fl.fixed_format || fl.fraction_digits)

/-- The Dragon4 digit-generation context fields used by rounding and
formatting (`duk_numconv_stringify_ctx`). -/
structure Dragon4Ctx where
  is_fixed : Bool
  abs_pos : Bool
  req_digits : Int
  B : Nat
  k : Int
  digits : List Nat
  count : Nat
deriving DecidableEq, Repr

/-- The carry-propagation loop of `dragon4_fixed_format_round`, walking from
the rounding position towards the first digit.  Returns the new digit buffer
and whether the carry propagated over the first digit (in which case a `1` is
prepended). -/
def dragon4_round_carry (B : Nat) : Nat → List Nat → (List Nat × Bool)
  | p, digits =>
      let digits0 := digits.set p 0
      if h : p = 0 then
        (1 :: digits0, true)
      else
        let t := digits0.getD (p - 1) 0 + 1
        if t < B then
          (digits0.set (p - 1) t, false)
        else
          dragon4_round_carry B (p - 1) digits0
  termination_by p _ => p
  decreasing_by omega

/-- `dragon4_fixed_format_round`: round the digit buffer at `round_idx`
(out-of-bounds positions do nothing); on carry over the first digit, `k` and
`count` grow by one.  Returns the updated context and the carry indicator. -/
def dragon4_fixed_format_round (ctx : Dragon4Ctx) (round_idx : Int) :
    Dragon4Ctx × Bool :=
  if (ctx.count : Int) ≤ round_idx then
    (ctx, false)
  else if round_idx < 0 then
    (ctx, false)
  else
    let ri := round_idx.toNat
    let roundup_limit := (ctx.B + 1) / 2
    if roundup_limit ≤ ctx.digits.getD ri 0 then
      match dragon4_round_carry ctx.B ri ctx.digits with
      | (ds, true) =>
          ({ ctx with digits := ds, k := ctx.k + 1, count := ctx.count + 1 },
           true)
      | (ds, false) => ({ ctx with digits := ds }, false)
    else
      (ctx, false)

/-- The digit-emission loop of `dragon4_convert_and_push`: positions from
`pos` (inclusive) down to `pos_end` (exclusive); a decimal point before the
digit at position 0; zeros outside the generated-digit window.  The loop
makes exactly `pos - pos_end` iterations (the `pos > pos_end` guard), which
the embedding counts structurally. -/
def dragon4_digit_loop_go (digitsBuf : List Nat) (count : Nat) (k : Int) :
    Nat → Int → List Char
  | 0, _ => []
  | fuel + 1, pos =>
      (if pos = 0 then ['.'] else []) ++
      (if k < pos then '0'
       else if pos ≤ k - count then '0'
       else DIGITCHAR (digitsBuf.getD (k - pos).toNat 0)) ::
      dragon4_digit_loop_go digitsBuf count k fuel (pos - 1)

def dragon4_digit_loop (digitsBuf : List Nat) (count : Nat) (k : Int)
    (pos pos_end : Int) : List Char :=
  dragon4_digit_loop_go digitsBuf count k (pos - pos_end).toNat pos

/-- `dragon4_convert_and_push`: format the digit buffer, selecting exponent
notation per the `FORCE_EXP`, `NO_ZERO_PAD` and radix-10 `toString`
criteria (never for `toFixed`-style absolute positions); the exponent, when
present, is printed in the output radix with an explicit sign. -/
def dragon4_convert_and_push (ctx : Dragon4Ctx) (radix : Nat) (digits : Nat)
    (flags : N2SFlags) (neg : Bool) : List Char :=
  let useExp := !ctx.abs_pos &&
    (flags.force_exp ||
     (flags.no_zero_pad && 1 ≤ ctx.k - digits) ||
     ((21 < ctx.k || ctx.k ≤ -6) && radix = 10))
  let expVal : Option Int := if useExp then some (ctx.k - 1) else none
  let k := if useExp then 1 else ctx.k
  let signPart : List Char := if neg then ['-'] else []
  let pos : Int := max k 1
  let pos_end0 : Int :=
    if ctx.is_fixed then
      if ctx.abs_pos then -(digits : Int) else k - digits
    else
      k - ctx.count
  let pos_end := min pos_end0 0
  let body := dragon4_digit_loop ctx.digits ctx.count k pos pos_end
  let expPart : List Char :=
    match expVal with
    | none => []
    | some e =>
        if 0 ≤ e then
          'e' :: '+' :: dragon4_format_uint32 e.toNat radix
        else
          'e' :: '-' :: dragon4_format_uint32 (-e).toNat radix
  signPart ++ body ++ expPart

/-- `duk_numconv_stringify`: handle NaN/Infinity, the shared
32-bit-integer fast path (taken only with no special formatting), and the
zero special case (which fakes an all-zero digit buffer, clears the negative
flag, performs fixed-format rounding when requested and goes through normal
formatting).  A non-zero value that needs slow-path digit generation is out
of modelled scope (`none`). -/
def duk_numconv_stringify (x : DukDouble) (radix : Nat) (digits : Nat)
    (flags : N2SFlags) : Option (List Char) :=
  let neg := x.sign
  if x.isNan then
    some ['N', 'a', 'N']
  else if x.isInf then
    if neg then
      some ['-', 'I', 'n', 'f', 'i', 'n', 'i', 't', 'y']
    else
      some ['I', 'n', 'f', 'i', 'n', 'i', 't', 'y']
  else
    match (if flags.allClear then duk_double_as_uint32 x else none) with
    | some uval =>
        some ((if neg && uval ≠ 0 then ['-'] else []) ++
          dragon4_format_uint32 uval radix)
    | none =>
        let abs_pos := flags.fixed_format && flags.fraction_digits
        let is_fixed := flags.fixed_format
        let req_digits : Int :=
          if flags.fixed_format then
            if flags.fraction_digits then -(digits : Int) else (digits : Int) + 1
          else 0
        if x.isZero then
          let count :=
            if is_fixed then
              if abs_pos then digits + 2 else digits + 1
            else 1
          let ctx : Dragon4Ctx :=
            { is_fixed := is_fixed, abs_pos := abs_pos,
              req_digits := req_digits, B := radix, k := 1,
              digits := List.replicate count 0, count := count }
          let ctx2 :=
            if flags.fixed_format then
              let roundpos : Int :=
                if flags.fraction_digits then ctx.k + digits
                else (digits : Int)
              (dragon4_fixed_format_round ctx roundpos).1
            else ctx
          some (dragon4_convert_and_push ctx2 radix digits flags false)
        else
          none

theorem DIGITCHAR_ne_minus (d : Nat) : DIGITCHAR d ≠ '-' := by
  unfold DIGITCHAR
  by_cases h : d < duk_lc_digits.length
  · rw [List.getD_eq_getElem _ _ h]
    have hmem := List.getElem_mem (l := duk_lc_digits) (n := d) h
    have hall : ∀ c ∈ duk_lc_digits, c ≠ '-' := by decide
    exact hall _ hmem
  · rw [List.getD_eq_default _ _ (by omega)]
    decide

theorem mem_dragon4_format_uint32_go (radix : Nat) :
    ∀ (fuel x : Nat) (acc : List Char) (c : Char),
      c ∈ dragon4_format_uint32_go radix fuel x acc →
      c ∈ acc ∨ ∃ d, c = DIGITCHAR d := by
  intro fuel
  induction fuel with
  | zero => intro x acc c hc; exact Or.inl hc
  | succ f ih =>
      intro x acc c hc
      unfold dragon4_format_uint32_go at hc
      dsimp only at hc
      split_ifs at hc with ht
      · rcases List.mem_cons.mp hc with h | h
        · exact Or.inr ⟨_, h⟩
        · exact Or.inl h
      · rcases ih _ _ _ hc with h | h
        · rcases List.mem_cons.mp h with h2 | h2
          · exact Or.inr ⟨_, h2⟩
          · exact Or.inl h2
        · exact Or.inr h

theorem mem_dragon4_digit_loop_go (digitsBuf : List Nat) (count : Nat)
    (k : Int) : ∀ (fuel : Nat) (pos : Int) (c : Char),
      c ∈ dragon4_digit_loop_go digitsBuf count k fuel pos →
      c = '.' ∨ c = '0' ∨ ∃ d, c = DIGITCHAR d := by
  intro fuel
  induction fuel with
  | zero => intro pos c hc; simp [dragon4_digit_loop_go] at hc
  | succ f ih =>
      intro pos c hc
      unfold dragon4_digit_loop_go at hc
      rcases List.mem_append.mp hc with h1 | h1
      · left
        split_ifs at h1 <;> simp_all
      · rcases List.mem_cons.mp h1 with h2 | h2
        · split_ifs at h2
          · right; left; exact h2
          · right; left; exact h2
          · right; right; exact ⟨_, h2⟩
        · exact ih _ c h2

theorem mem_dragon4_digit_loop (digitsBuf : List Nat) (count : Nat) (k : Int)
    (pos pos_end : Int) (c : Char)
    (hc : c ∈ dragon4_digit_loop digitsBuf count k pos pos_end) :
    c = '.' ∨ c = '0' ∨ ∃ d, c = DIGITCHAR d :=
  mem_dragon4_digit_loop_go digitsBuf count k _ _ c hc

theorem getD_replicate_zero : ∀ (count ri : Nat),
    (List.replicate count (0 : Nat)).getD ri 0 = 0 := by
  intro count
  induction count with
  | zero => intro ri; simp [List.getD]
  | succ n ih =>
      intro ri
      cases ri with
      | zero => simp [List.replicate, List.getD]
      | succ m => simpa [List.replicate, List.getD] using ih m

theorem dragon4_fixed_format_round_zero_digits (ctx : Dragon4Ctx) (r : Int)
    (hB : 1 ≤ ctx.B) (hz : ∀ i, ctx.digits.getD i 0 = 0) :
    (dragon4_fixed_format_round ctx r).1 = ctx := by
  unfold dragon4_fixed_format_round
  split_ifs with h1 h2
  · rfl
  · rfl
  · dsimp only
    rw [hz r.toNat, if_neg (by omega)]

theorem dragon4_convert_and_push_no_minus (ctx : Dragon4Ctx) (radix : Nat)
    (digits : Nat) (flags : N2SFlags) (hk : ctx.k = 1) :
    '-' ∉ dragon4_convert_and_push ctx radix digits flags false := by
  intro hmem
  unfold dragon4_convert_and_push at hmem
  dsimp only at hmem
  rw [hk] at hmem
  rcases List.mem_append.mp hmem with h | h
  · rcases List.mem_append.mp h with h1 | h1
    · simp at h1
    · rcases mem_dragon4_digit_loop _ _ _ _ _ _ h1 with h2 | h2 | ⟨d, h2⟩
      · simp at h2
      · simp at h2
      · exact DIGITCHAR_ne_minus d h2.symm
  · split_ifs at h with hexp
    · dsimp only at h
      rw [if_pos (by omega)] at h
      rcases List.mem_cons.mp h with h2 | h2
      · simp at h2
      · rcases List.mem_cons.mp h2 with h3 | h3
        · simp at h3
        · rcases mem_dragon4_format_uint32_go radix _ _ _ _ h3 with h4 | ⟨d, h4⟩
          · simp at h4
          · exact DIGITCHAR_ne_minus d h4.symm
    · simp at h

/-- C10: for every radix in [2..36], every digit count and every combination
of output flags, number-to-string conversion of negative zero yields exactly
the same string as positive zero, and that string never contains a minus
sign — on the 32-bit-integer fast path the sign is suppressed for a zero
value, and on the zero special-case slow path the negative flag is cleared
before formatting. -/
theorem duk_numconv_stringify_negzero_eq_poszero (radix digits : Nat)
    (flags : N2SFlags) (h2 : 2 ≤ radix) (h36 : radix ≤ 36) :
    duk_numconv_stringify ⟨true, 0, 0⟩ radix digits flags =
      duk_numconv_stringify ⟨false, 0, 0⟩ radix digits flags ∧
    (∀ s, duk_numconv_stringify ⟨true, 0, 0⟩ radix digits flags = some s →
       '-' ∉ s) := by
  have hzeroctx : ∀ count : Nat, ∀ i : Nat,
      (List.replicate count (0 : Nat)).getD i 0 = 0 := fun c i =>
    getD_replicate_zero c i
  constructor
  · unfold duk_numconv_stringify
    by_cases hfl : flags.allClear
    · simp [DukDouble.isNan, DukDouble.isInf, duk_double_as_uint32, hfl]
    · simp [DukDouble.isNan, DukDouble.isInf, DukDouble.isZero,
        duk_double_as_uint32, hfl]
  · intro s hs
    unfold duk_numconv_stringify at hs
    by_cases hfl : flags.allClear
    · simp only [DukDouble.isNan, DukDouble.isInf, duk_double_as_uint32,
        hfl] at hs
      norm_num at hs
      subst hs
      intro hmem
      rcases mem_dragon4_format_uint32_go radix _ _ _ _ hmem with h | ⟨d, h⟩
      · simp at h
      · exact DIGITCHAR_ne_minus d h.symm
    · simp only [DukDouble.isNan, DukDouble.isInf, DukDouble.isZero,
        duk_double_as_uint32, hfl] at hs
      norm_num at hs
      by_cases hff : flags.fixed_format
      · simp only [hff, if_true, if_pos] at hs
        rw [dragon4_fixed_format_round_zero_digits _ _ (by simpa using by omega)
          (by intro i; exact hzeroctx _ i)] at hs
        subst hs
        exact dragon4_convert_and_push_no_minus _ radix digits flags rfl
      · simp only [hff, if_false] at hs
        subst hs
        exact dragon4_convert_and_push_no_minus _ radix digits flags rfl

/-- Witness for `duk_numconv_stringify_negzero_eq_poszero`: radix 10 with
forced exponential notation; both zeros format as "0e+0". -/
theorem duk_numconv_stringify_negzero_eq_poszero_witness :
    (2 ≤ 10 ∧ 10 ≤ 36) ∧
    duk_numconv_stringify ⟨true, 0, 0⟩ 10 2 ⟨true, false, false, false⟩ =
      duk_numconv_stringify ⟨false, 0, 0⟩ 10 2 ⟨true, false, false, false⟩ ∧
    duk_numconv_stringify ⟨false, 0, 0⟩ 10 2 ⟨true, false, false, false⟩ =
      some ['0', 'e', '+', '0'] := by
  refine ⟨⟨by decide, by decide⟩, ?_, by rfl⟩
  exact (duk_numconv_stringify_negzero_eq_poszero 10 2
    ⟨true, false, false, false⟩ (by decide) (by decide)).1

/-! ### C4: string-to-number parsing (`duk_numconv_parse`) -/

